import Mathlib

/-
Verification of the pooled WebDriver resource manager implemented by the
class WebDriverPool in appnew.py.  The embedding below translates the
pool bookkeeping of that class into pure Lean functions: the Python dict
active_drivers becomes an association list keyed by the integer identity
of the driver object, the Queue driver_pool becomes a FIFO list, and the
effectful parts (liveness probes against the live browser session, driver
creation, wall-clock time) become explicit oracle inputs to each
operation.  All destructions (calls to _quit_driver) are reported in an
output list so that lifecycle properties can be stated.
-/

set_option linter.unusedVariables false

namespace WebDriverPool

/-- A driver handle.  The field addr models the CPython memory address of
the object, which is what the builtin id() returns; nonce distinguishes
distinct creations that may reuse an address, so two differently created
drivers can agree on addr while being different resources. -/
structure Driver where
  addr : Nat
  nonce : Nat
deriving DecidableEq

/-- Embedding of the Python builtin id(driver) as used by get_driver and
release_driver: it is derived from the memory address alone. -/
def pyId (d : Driver) : Nat := d.addr

/-- One entry of the idle queue self.driver_pool: the stored dict has keys
driver and created_at.  The extra field valid records the outcome the
liveness probe _is_driver_valid will report if this entry is popped. -/
structure IdleEntry where
  driver : Driver
  created_at : Nat
  valid : Bool
deriving DecidableEq

/-- One value of the dict self.active_drivers: driver, created_at and
last_used, exactly the keys stored by get_driver. -/
structure ActiveEntry where
  driver : Driver
  created_at : Nat
  last_used : Nat
deriving DecidableEq

/-- The mutable state of a WebDriverPool instance: driver_pool (FIFO,
head is the next element returned by Queue.get), active_drivers (dict
keyed by id(driver)), pool_size, and the configuration fixed in
__init__ together with the running flag. -/
structure PoolState where
  driver_pool : List IdleEntry
  active_drivers : List (Nat × ActiveEntry)
  pool_size : Int
  max_drivers : Nat
  max_driver_age : Nat
  running : Bool
deriving DecidableEq

/-- State of a pool directly after __init__: empty queue, empty dict,
pool_size zero, running true. -/
def freshPool (max_drivers max_driver_age : Nat) : PoolState :=
  { driver_pool := []
    active_drivers := []
    pool_size := 0
    max_drivers := max_drivers
    max_driver_age := max_driver_age
    running := true }

/-- Membership test for a key in the association list modelling the
active_drivers dict. -/
def containsA (k : Nat) : List (Nat × ActiveEntry) → Bool
  | [] => false
  | p :: rest => decide (p.1 = k) || containsA k rest

/-- Python dict assignment d[k] = v: replace in place when the key is
present, append otherwise. -/
def insertA (k : Nat) (v : ActiveEntry) : List (Nat × ActiveEntry) → List (Nat × ActiveEntry)
  | [] => [(k, v)]
  | p :: rest => if p.1 = k then (k, v) :: rest else p :: insertA k v rest

/-- Python dict.pop(k): return the stored value (if any) and the list
with the first binding of k removed. -/
def popA (k : Nat) : List (Nat × ActiveEntry) → Option ActiveEntry × List (Nat × ActiveEntry)
  | [] => (none, [])
  | p :: rest =>
    if p.1 = k then (some p.2, rest)
    else ((popA k rest).1, p :: (popA k rest).2)

/-- Oracle inputs for one iteration of the while loop of get_driver:
now is the value time.time() yields during the iteration, and newDriver
is the outcome of _create_new_driver if it is called (none models the
constructor raising, the FactoryCreationFailure of the spec). -/
structure IterEnv where
  now : Nat
  newDriver : Option Driver
deriving DecidableEq

/-- Outcome of get_driver: a driver, the TimeoutError raised after the
while loop (AcquireTimeout of the spec), or a creation failure
propagating out of _create_new_driver. -/
inductive AcquireResult
  | ok (d : Driver)
  | timeoutErr
  | createErr
deriving DecidableEq

/-- Full outcome of a run of the get_driver loop: result, final pool
state, drivers passed to _quit_driver, drivers returned by
_create_new_driver, and the number of time.sleep(0.5) calls executed. -/
structure LoopOut where
  result : AcquireResult
  state : PoolState
  destroyed : List Driver
  created : List Driver
  sleeps : Nat
deriving DecidableEq

/-- Embedding of the while loop of get_driver (appnew.py lines 106 to
150).  Fuel is the list of per-iteration oracles: an empty list means the
while condition time.time() - start_time < timeout has gone false, which
raises TimeoutError.  Each iteration: pop the queue head if any; a valid
driver is inserted into active_drivers under id(driver) and returned; an
invalid one is quit, pool_size is decremented, and the loop continues
with no sleep; on an empty queue, if pool_size < max_drivers a driver is
created (created_at = last_used = now) and returned, a creation failure
propagates, and otherwise the iteration sleeps 0.5 s and retries. -/
def get_driver : PoolState → List IterEnv → LoopOut
  | s, [] => ⟨.timeoutErr, s, [], [], 0⟩
  | s, env :: rest =>
    match s.driver_pool with
    | info :: q =>
      if info.valid then
        ⟨.ok info.driver,
          { s with
              driver_pool := q
              active_drivers :=
                insertA (pyId info.driver)
                  { driver := info.driver, created_at := info.created_at, last_used := env.now }
                  s.active_drivers },
          [], [], 0⟩
      else
        let out := get_driver { s with driver_pool := q, pool_size := s.pool_size - 1 } rest
        ⟨out.result, out.state, info.driver :: out.destroyed, out.created, out.sleeps⟩
    | [] =>
      if s.pool_size < (s.max_drivers : Int) then
        match env.newDriver with
        | some d =>
          ⟨.ok d,
            { s with
                pool_size := s.pool_size + 1
                active_drivers :=
                  insertA (pyId d)
                    { driver := d, created_at := env.now, last_used := env.now }
                    s.active_drivers },
            [], [d], 0⟩
        | none => ⟨.createErr, s, [], [], 0⟩
      else
        let out := get_driver s rest
        ⟨out.result, out.state, out.destroyed, out.created, out.sleeps + 1⟩

/-- Formalisation of the spec phrase: no Resource becomes available
within the timeout window, that is, at every iteration the idle queue
yields only invalid drivers or is empty while capacity stays exhausted. -/
def allUnavailable : PoolState → List IterEnv → Bool
  | _, [] => true
  | s, _ :: rest =>
    match s.driver_pool with
    | info :: q =>
      !info.valid &&
        allUnavailable { s with driver_pool := q, pool_size := s.pool_size - 1 } rest
    | [] =>
      !(decide (s.pool_size < (s.max_drivers : Int))) && allUnavailable s rest

/-- Embedding of release_driver (appnew.py lines 152 to 185).  The two
Boolean oracles give the outcome of the liveness probe at release time
and the outcome the returned entry would report at its next pop; the
returned list holds the drivers passed to _quit_driver. -/
def release_driver (s : PoolState) (driver : Option Driver) (now : Nat)
    (validNow validNext : Bool) : PoolState × List Driver :=
  match driver with
  | none => (s, [])
  | some d =>
    match popA (pyId d) s.active_drivers with
    | (some info, rest) =>
      if ((now : Int) - (info.created_at : Int) > (s.max_driver_age : Int)) ∨ validNow = false then
        ({ s with active_drivers := rest, pool_size := s.pool_size - 1 }, [d])
      else
        ({ s with
            active_drivers := rest
            driver_pool :=
              s.driver_pool ++ [{ driver := d, created_at := info.created_at, valid := validNext }] },
          [])
    | (none, _) => (s, [d])

/-- Test applied by the maintenance worker to one active_drivers item:
current_time - info last_used > 300 (the hardcoded 5 minute stuck-lease
threshold). -/
def stuckB (current_time : Nat) (p : Nat × ActiveEntry) : Bool :=
  decide ((current_time : Int) - (p.2.last_used : Int) > 300)

/-- Embedding of one successful sweep of _maintenance_worker (appnew.py
lines 271 to 293): quit and remove every stuck active driver,
decrementing pool_size for each, then recompute
len(active_drivers) + qsize and reset pool_size when it differs. -/
def maintenance_sweep (s : PoolState) (current_time : Nat) : PoolState × List Driver :=
  let stuck := s.active_drivers.filter (stuckB current_time)
  let remaining := s.active_drivers.filter (fun p => !stuckB current_time p)
  let s1 := { s with active_drivers := remaining, pool_size := s.pool_size - stuck.length }
  let expected : Nat := remaining.length + s1.driver_pool.length
  let s2 :=
    if (expected : Int) ≠ s1.pool_size then { s1 with pool_size := (expected : Int) } else s1
  (s2, stuck.map (fun p => p.2.driver))

/-- Oracle for one pass of the maintenance loop: either the sweep runs at
some clock value, or an unexpected exception is raised inside the try
block (caught by the except clause, which only logs). -/
inductive SweepOutcome
  | sweepAt (current_time : Nat)
  | sweepFault
deriving DecidableEq

/-- Embedding of the while loop of _maintenance_worker (appnew.py lines
262 to 296) over a list of per-pass oracles.  The loop body runs only
while running is true; a faulted pass leaves the state unchanged and the
loop continues with the next pass. -/
def maintenance_worker (s : PoolState) : List SweepOutcome → PoolState × List Driver
  | [] => (s, [])
  | o :: rest =>
    if s.running then
      match o with
      | .sweepAt t =>
        let r1 := maintenance_sweep s t
        let r2 := maintenance_worker r1.1 rest
        (r2.1, r1.2 ++ r2.2)
      | .sweepFault => maintenance_worker s rest
    else (s, [])

/-- Embedding of shutdown (appnew.py lines 298 to 320): set running to
false, quit and drain every queued driver, quit every active driver,
clear the dict and reset pool_size to zero. -/
def shutdown (s : PoolState) : PoolState × List Driver :=
  ({ s with running := false, driver_pool := [], active_drivers := [], pool_size := 0 },
    s.driver_pool.map (fun e => e.driver) ++ s.active_drivers.map (fun p => p.2.driver))

/-- Possible outcomes of the probe driver.current_url performed by
_is_driver_valid: success, one of the three exception classes named in
the except clause, or an exception outside those classes. -/
inductive ProbeOutcome
  | responds
  | invalidSessionIdExc
  | noSuchWindowExc
  | webDriverExc
  | unexpectedExc
deriving DecidableEq

/-- Embedding of _is_driver_valid (appnew.py lines 227 to 245): a falsy
driver gives False; the probe gives True on success and False when one of
InvalidSessionIdException, NoSuchWindowException, WebDriverException is
raised; any other exception escapes the function (modelled as error). -/
def is_driver_valid (driver : Option Driver) (probe : ProbeOutcome) : Except Unit Bool :=
  match driver with
  | none => .ok false
  | some _ =>
    match probe with
    | .responds => .ok true
    | .invalidSessionIdExc => .ok false
    | .noSuchWindowExc => .ok false
    | .webDriverExc => .ok false
    | .unexpectedExc => .error ()

/-- One externally triggered operation on the pool, with its oracles. -/
inductive Op
  | acquire (envs : List IterEnv)
  | release (driver : Option Driver) (now : Nat) (validNow validNext : Bool)
  | sweep (o : SweepOutcome)
  | doShutdown
deriving DecidableEq

/-- Result of running one operation or a trace: new state plus the
drivers destroyed and the drivers created along the way. -/
structure StepOut where
  state : PoolState
  destroyed : List Driver
  created : List Driver
deriving DecidableEq

/-- Effect of a single operation on the pool state. -/
def step (s : PoolState) : Op → StepOut
  | .acquire envs =>
    let out := get_driver s envs
    ⟨out.state, out.destroyed, out.created⟩
  | .release d now vNow vNext =>
    let r := release_driver s d now vNow vNext
    ⟨r.1, r.2, []⟩
  | .sweep o =>
    let r := maintenance_worker s [o]
    ⟨r.1, r.2, []⟩
  | .doShutdown =>
    let r := shutdown s
    ⟨r.1, r.2, []⟩

/-- Sequential execution of a trace of operations. -/
def run (s : PoolState) : List Op → StepOut
  | [] => ⟨s, [], []⟩
  | op :: rest =>
    let o1 := step s op
    let o2 := run o1.state rest
    ⟨o2.state, o1.destroyed ++ o2.destroyed, o1.created ++ o2.created⟩

/-- Identity keys of every driver currently tracked by the pool, idle
queue first, then active map. -/
def trackedAddrs (s : PoolState) : List Nat :=
  s.driver_pool.map (fun e => pyId e.driver) ++ s.active_drivers.map Prod.fst

/-- Every driver currently tracked by the pool, idle queue first. -/
def trackedDrivers (s : PoolState) : List Driver :=
  s.driver_pool.map (fun e => e.driver) ++ s.active_drivers.map (fun p => p.2.driver)

/-- Structural well-formedness delivered by the CPython runtime: all
simultaneously tracked driver objects are live, hence their id() values
are pairwise distinct. -/
def addrsOK (s : PoolState) : Prop := (trackedAddrs s).Nodup

/-- The bookkeeping invariant of the spec: pool_size equals the idle
queue length plus the active map size. -/
def sizeInv (s : PoolState) : Prop :=
  s.pool_size = ((s.driver_pool.length + s.active_drivers.length : Nat) : Int)

/-- The capacity invariant of the spec: pool_size never exceeds
max_drivers. -/
def capInv (s : PoolState) : Prop := s.pool_size ≤ (s.max_drivers : Int)

/-- Conjunction of the structural and bookkeeping invariants. -/
def Good (s : PoolState) : Prop := addrsOK s ∧ sizeInv s ∧ capInv s

/-- Freshness of creation oracles for one acquire call: any driver the
factory may produce is a new live object, so its address differs from
every tracked one. -/
def freshFor (s : PoolState) (envs : List IterEnv) : Prop :=
  ∀ env ∈ envs, ∀ d : Driver, env.newDriver = some d → pyId d ∉ trackedAddrs s

/-- Runtime faithfulness of one operation, decidably.  For an acquire,
any driver the factory may hand out is fresh; for a release, the caller
passes the very object the pool tracks under that id (live objects with
equal id() are identical in CPython). -/
def opOKb (s : PoolState) : Op → Bool
  | .acquire envs =>
    envs.all fun env =>
      match env.newDriver with
      | some d => !(decide (pyId d ∈ trackedAddrs s))
      | none => true
  | .release (some d) _ _ _ =>
    s.active_drivers.all fun p => !(decide (p.1 = pyId d)) || decide (p.2.driver = d)
  | _ => true

/-- Runtime faithfulness of a whole trace, evaluated along execution. -/
def traceOKb (s : PoolState) : List Op → Bool
  | [] => true
  | op :: rest => opOKb s op && traceOKb (step s op).state rest

/-- Restriction of a trace to the two caller-facing operations. -/
def acquireOrRelease : Op → Bool
  | .acquire _ => true
  | .release _ _ _ _ => true
  | _ => false

/-! Lemmas about the association-list model of the active_drivers dict. -/

theorem containsA_false_iff (k : Nat) (l : List (Nat × ActiveEntry)) :
    containsA k l = false ↔ k ∉ l.map Prod.fst := by
  induction l with
  | nil => simp [containsA]
  | cons p rest ih =>
    simp only [containsA, Bool.or_eq_false_iff, decide_eq_false_iff_not, List.map_cons,
      List.mem_cons, not_or, ih]
    constructor
    · rintro ⟨h1, h2⟩; exact ⟨fun h => h1 h.symm, h2⟩
    · rintro ⟨h1, h2⟩; exact ⟨fun h => h1 h.symm, h2⟩

theorem insertA_fresh (k : Nat) (v : ActiveEntry) (l : List (Nat × ActiveEntry))
    (h : containsA k l = false) : insertA k v l = l ++ [(k, v)] := by
  induction l with
  | nil => rfl
  | cons p rest ih =>
    simp only [containsA, Bool.or_eq_false_iff, decide_eq_false_iff_not] at h
    simp [insertA, h.1, ih h.2]

theorem popA_fresh (k : Nat) (l : List (Nat × ActiveEntry))
    (h : containsA k l = false) : popA k l = (none, l) := by
  induction l with
  | nil => rfl
  | cons p rest ih =>
    simp only [containsA, Bool.or_eq_false_iff, decide_eq_false_iff_not] at h
    simp [popA, h.1, ih h.2]

theorem popA_some_mem (k : Nat) (l : List (Nat × ActiveEntry)) (v : ActiveEntry)
    (h : (popA k l).1 = some v) : (k, v) ∈ l := by
  induction l with
  | nil => simp [popA] at h
  | cons p rest ih =>
    by_cases hk : p.1 = k
    · simp only [popA, hk, if_pos, Option.some.injEq] at h
      subst h
      subst hk
      exact List.mem_cons_self (p.1, p.2) rest
    · simp only [popA, hk, ite_false] at h
      exact List.mem_cons_of_mem _ (ih h)

theorem popA_some_length (k : Nat) (l : List (Nat × ActiveEntry)) (v : ActiveEntry)
    (h : (popA k l).1 = some v) : l.length = (popA k l).2.length + 1 := by
  induction l with
  | nil => simp [popA] at h
  | cons p rest ih =>
    by_cases hk : p.1 = k
    · simp [popA, hk]
    · simp only [popA, hk, ite_false] at h ⊢
      simp [ih h]

theorem popA_sublist (k : Nat) (l : List (Nat × ActiveEntry)) : (popA k l).2.Sublist l := by
  induction l with
  | nil => simp [popA]
  | cons p rest ih =>
    by_cases hk : p.1 = k
    · simp [popA, hk]
    · simp only [popA, hk, ite_false]
      exact ih.cons₂ p

theorem popA_mem_or (k : Nat) (l : List (Nat × ActiveEntry)) (p : Nat × ActiveEntry)
    (hp : p ∈ l) : p ∈ (popA k l).2 ∨ ((popA k l).1 = some p.2 ∧ p.1 = k) := by
  induction l with
  | nil => simp at hp
  | cons q rest ih =>
    by_cases hk : q.1 = k
    · simp only [popA, hk, if_pos]
      rcases List.mem_cons.mp hp with h | h
      · subst h; exact Or.inr ⟨rfl, hk⟩
      · exact Or.inl h
    · simp only [popA, hk, ite_false]
      rcases List.mem_cons.mp hp with h | h
      · subst h; exact Or.inl (List.mem_cons_self _ _)
      · rcases ih h with h1 | h1
        · exact Or.inl (List.mem_cons_of_mem _ h1)
        · exact Or.inr h1

theorem popA_not_mem_keys (k : Nat) (l : List (Nat × ActiveEntry))
    (h : (l.map Prod.fst).Nodup) : k ∉ (popA k l).2.map Prod.fst := by
  induction l with
  | nil => simp [popA]
  | cons p rest ih =>
    simp only [List.map_cons, List.nodup_cons] at h
    by_cases hk : p.1 = k
    · simp only [popA, hk, if_pos]
      subst hk; exact h.1
    · simp only [popA, hk, ite_false, List.map_cons, List.mem_cons, not_or]
      exact ⟨fun hh => hk hh.symm, ih h.2⟩

/-! Shape lemmas for one maintenance sweep. -/

theorem sweep_state_active (s : PoolState) (t : Nat) :
    (maintenance_sweep s t).1.active_drivers =
      s.active_drivers.filter (fun q => !stuckB t q) := by
  simp only [maintenance_sweep]
  split <;> rfl

theorem sweep_state_pool (s : PoolState) (t : Nat) :
    (maintenance_sweep s t).1.driver_pool = s.driver_pool := by
  simp only [maintenance_sweep]
  split <;> rfl

theorem sweep_state_running (s : PoolState) (t : Nat) :
    (maintenance_sweep s t).1.running = s.running := by
  simp only [maintenance_sweep]
  split <;> rfl

theorem sweep_state_max (s : PoolState) (t : Nat) :
    (maintenance_sweep s t).1.max_drivers = s.max_drivers := by
  simp only [maintenance_sweep]
  split <;> rfl

theorem sweep_destroyed_eq (s : PoolState) (t : Nat) :
    (maintenance_sweep s t).2 =
      (s.active_drivers.filter (stuckB t)).map (fun p => p.2.driver) := rfl

theorem sweep_pool_size (s : PoolState) (t : Nat) :
    (maintenance_sweep s t).1.pool_size =
      (((s.active_drivers.filter (fun q => !stuckB t q)).length
        + s.driver_pool.length : Nat) : Int) := by
  simp only [maintenance_sweep]
  split
  · rfl
  · rename_i h
    exact (not_ne_iff.mp h).symm

/-- C5: a maintenance sweep destroys every active lease whose last_used
is more than the stuck threshold before current_time, removes its key
from the active map, leaves the idle queue alone, and ends with
pool_size equal to the recomputed active-plus-idle size; and an
exception inside one pass never stops the maintenance loop. -/
theorem reaper_reclaims_stuck_leases (s : PoolState) (t : Nat) (p : Nat × ActiveEntry)
    (hnd : (s.active_drivers.map Prod.fst).Nodup)
    (hp : p ∈ s.active_drivers) (hstuck : stuckB t p = true) :
    (p.2.driver ∈ (maintenance_sweep s t).2
      ∧ containsA p.1 (maintenance_sweep s t).1.active_drivers = false
      ∧ (maintenance_sweep s t).1.driver_pool = s.driver_pool
      ∧ (maintenance_sweep s t).1.pool_size =
          (((maintenance_sweep s t).1.active_drivers.length
            + (maintenance_sweep s t).1.driver_pool.length : Nat) : Int))
    ∧ ∀ (rest : List SweepOutcome), s.running = true →
        maintenance_worker s (SweepOutcome.sweepFault :: rest) = maintenance_worker s rest := by
  constructor
  · refine ⟨?_, ?_, sweep_state_pool s t, ?_⟩
    · rw [sweep_destroyed_eq]
      exact List.mem_map_of_mem _ (List.mem_filter.mpr ⟨hp, hstuck⟩)
    · rw [containsA_false_iff, sweep_state_active]
      intro hmem
      rcases List.mem_map.mp hmem with ⟨q, hqf, hq1⟩
      rcases List.mem_filter.mp hqf with ⟨hqmem, hqns⟩
      have hqp : q = p := List.inj_on_of_nodup_map hnd hqmem hp hq1
      rw [hqp, hstuck] at hqns
      simp at hqns
    · rw [sweep_pool_size, sweep_state_active, sweep_state_pool]
  · intro rest hrun
    simp [maintenance_worker, hrun]

/-- Witness for the reaper theorem: a lease last used at time 0 is
reclaimed by a sweep at time 1000. -/
theorem reaper_reclaims_stuck_leases_witness :
    (⟨1, 0⟩ : Driver) ∈
      (maintenance_sweep
        { driver_pool := [], active_drivers := [(1, ⟨⟨1, 0⟩, 0, 0⟩)], pool_size := 1,
          max_drivers := 2, max_driver_age := 1800, running := true } 1000).2 :=
  (reaper_reclaims_stuck_leases
      { driver_pool := [], active_drivers := [(1, ⟨⟨1, 0⟩, 0, 0⟩)], pool_size := 1,
        max_drivers := 2, max_driver_age := 1800, running := true }
      1000 (1, ⟨⟨1, 0⟩, 0, 0⟩) (by decide) (by decide) (by decide)).1.1

/-- Helper for C4: the get_driver loop raises the timeout exactly when no
driver is available at any iteration of the window. -/
theorem get_driver_timeout_aux : ∀ (envs : List IterEnv) (s : PoolState),
    ((get_driver s envs).result = AcquireResult.timeoutErr ↔ allUnavailable s envs = true) := by
  intro envs
  induction envs with
  | nil => intro s; simp [get_driver, allUnavailable]
  | cons env rest ih =>
    intro s
    rcases hq : s.driver_pool with _ | ⟨info, q⟩
    · by_cases hc : s.pool_size < (s.max_drivers : Int)
      · rcases hnd : env.newDriver with _ | d
        · simp [get_driver, allUnavailable, hq, hc, hnd]
        · simp [get_driver, allUnavailable, hq, hc, hnd]
      · simp [get_driver, allUnavailable, hq, hc, ih]
    · by_cases hv : info.valid
      · simp [get_driver, allUnavailable, hq, hv]
      · simp only [Bool.not_eq_true] at hv
        simp [get_driver, allUnavailable, hq, hv, ih]

/-- C4: get_driver raises the acquire timeout exactly when the window
offered no driver (every popped idle entry invalid, and capacity
exhausted whenever the queue was empty); otherwise it hands out a driver
or propagates a creation failure; and popping an invalid idle driver
quits it, decrements pool_size and retries at once, adding no sleep. -/
theorem acquire_timeout_iff_unavailable (s : PoolState) (envs : List IterEnv) :
    ((get_driver s envs).result = AcquireResult.timeoutErr ↔ allUnavailable s envs = true)
    ∧ (allUnavailable s envs = false →
        (∃ d, (get_driver s envs).result = AcquireResult.ok d) ∨
          (get_driver s envs).result = AcquireResult.createErr)
    ∧ ∀ (env : IterEnv) (rest : List IterEnv) (info : IdleEntry) (q : List IdleEntry),
        s.driver_pool = info :: q → info.valid = false →
        get_driver s (env :: rest) =
          { get_driver { s with driver_pool := q, pool_size := s.pool_size - 1 } rest with
              destroyed := info.driver ::
                (get_driver { s with driver_pool := q, pool_size := s.pool_size - 1 } rest).destroyed } := by
  refine ⟨get_driver_timeout_aux envs s, ?_, ?_⟩
  · intro hun
    rcases hres : (get_driver s envs).result with d | _ | _
    · exact Or.inl ⟨d, rfl⟩
    · exfalso
      have := (get_driver_timeout_aux envs s).mp hres
      rw [hun] at this
      exact Bool.false_ne_true this
    · exact Or.inr rfl
  · intro env rest info q hq hv
    simp [get_driver, hq, hv]

/-- Witness for the acquire-timeout theorem: a pool with zero capacity
and an empty queue times out. -/
theorem acquire_timeout_iff_unavailable_witness :
    (get_driver (freshPool 0 1800) [⟨0, none⟩]).result = AcquireResult.timeoutErr :=
  (acquire_timeout_iff_unavailable (freshPool 0 1800) [⟨0, none⟩]).1.mpr (by decide)

/-- C10: calling release_driver with a falsy driver returns immediately,
destroys nothing, and leaves pool_size, the idle queue and the active map
exactly unchanged. -/
theorem release_none_noop (s : PoolState) (now : Nat) (validNow validNext : Bool) :
    release_driver s none now validNow validNext = (s, []) := rfl

/-- C9: releasing a driver whose id is not a key of active_drivers quits
it defensively and returns, leaving pool_size, the idle queue and the
active map untouched. -/
theorem unknown_release_destroys_defensively (s : PoolState) (d : Driver) (now : Nat)
    (validNow validNext : Bool) (h : containsA (pyId d) s.active_drivers = false) :
    release_driver s (some d) now validNow validNext = (s, [d]) := by
  have hp := popA_fresh (pyId d) s.active_drivers h
  simp [release_driver, hp]

/-- Witness for the unknown-release theorem at a concrete input. -/
theorem unknown_release_destroys_defensively_witness :
    release_driver (freshPool 1 1800) (some ⟨2, 0⟩) 0 true true = (freshPool 1 1800, [⟨2, 0⟩]) :=
  unknown_release_destroys_defensively (freshPool 1 1800) ⟨2, 0⟩ 0 true true (by decide)

/-- C3: when the released id is a key of active_drivers, the entry is
removed; if now minus the stored created_at exceeds max_driver_age or the
liveness probe fails, the driver is quit and pool_size decremented, and
otherwise it is appended to the tail of the idle queue with the stored
created_at preserved, so its age keeps accumulating across leases. -/
theorem release_known_driver_age_check (s : PoolState) (d : Driver) (now : Nat)
    (validNow validNext : Bool) (info : ActiveEntry) (rest : List (Nat × ActiveEntry))
    (hpop : popA (pyId d) s.active_drivers = (some info, rest)) :
    ((((now : Int) - (info.created_at : Int) > (s.max_driver_age : Int)) ∨ validNow = false) →
      release_driver s (some d) now validNow validNext =
        ({ s with active_drivers := rest, pool_size := s.pool_size - 1 }, [d]))
    ∧ (¬((now : Int) - (info.created_at : Int) > (s.max_driver_age : Int)) → validNow = true →
      release_driver s (some d) now validNow validNext =
        ({ s with
            active_drivers := rest
            driver_pool := s.driver_pool ++
              [{ driver := d, created_at := info.created_at, valid := validNext }] }, [])) := by
  constructor
  · intro hcond
    simp only [release_driver, hpop]
    rw [if_pos hcond]
  · intro hage hv
    simp only [release_driver, hpop]
    rw [if_neg (by simp [hage, hv])]

/-- Witness for the release age-check theorem: a young healthy driver is
recycled to the tail of the idle queue with its original created_at. -/
theorem release_known_driver_age_check_witness :
    release_driver
        { driver_pool := [], active_drivers := [(4, ⟨⟨4, 0⟩, 0, 10⟩)], pool_size := 1,
          max_drivers := 2, max_driver_age := 1800, running := true }
        (some ⟨4, 0⟩) 100 true true =
      ({ driver_pool := [{ driver := ⟨4, 0⟩, created_at := 0, valid := true }],
         active_drivers := [], pool_size := 1,
         max_drivers := 2, max_driver_age := 1800, running := true }, []) :=
  (release_known_driver_age_check
      { driver_pool := [], active_drivers := [(4, ⟨⟨4, 0⟩, 0, 10⟩)], pool_size := 1,
        max_drivers := 2, max_driver_age := 1800, running := true }
      ⟨4, 0⟩ 100 true true ⟨⟨4, 0⟩, 0, 10⟩ [] (by decide)).2 (by decide) rfl

/-- C6: when the idle queue is empty, capacity is free and
_create_new_driver raises, the failure propagates out of get_driver and
the pool state is unchanged: pool_size is not incremented and
active_drivers gains no entry. -/
theorem creation_failure_propagates_state_unchanged (s : PoolState) (env : IterEnv)
    (rest : List IterEnv) (hq : s.driver_pool = [])
    (hcap : s.pool_size < (s.max_drivers : Int)) (hfail : env.newDriver = none) :
    get_driver s (env :: rest) = ⟨.createErr, s, [], [], 0⟩ := by
  simp [get_driver, hq, hcap, hfail]

/-- Witness for the creation-failure theorem at a concrete input. -/
theorem creation_failure_propagates_state_unchanged_witness :
    get_driver (freshPool 2 1800) [⟨0, none⟩] = ⟨.createErr, freshPool 2 1800, [], [], 0⟩ :=
  creation_failure_propagates_state_unchanged (freshPool 2 1800) ⟨0, none⟩ [] rfl (by decide) rfl

/-- C7 exhibit: the pool keys active_drivers by id(driver), which is the
memory address, so a differently created driver reusing the address of a
tracked one aliases its entry: releasing the never-acquired second driver
removes the entry of the first and recycles the second as if it were
tracked. -/
theorem identity_key_is_memory_address_collision :
    (⟨100, 0⟩ : Driver) ≠ ⟨100, 1⟩ ∧ pyId ⟨100, 0⟩ = pyId ⟨100, 1⟩ ∧
    release_driver
        { driver_pool := [], active_drivers := [(pyId ⟨100, 0⟩, ⟨⟨100, 0⟩, 0, 0⟩)],
          pool_size := 1, max_drivers := 2, max_driver_age := 1800, running := true }
        (some ⟨100, 1⟩) 5 true true =
      ({ driver_pool := [{ driver := ⟨100, 1⟩, created_at := 0, valid := true }],
         active_drivers := [], pool_size := 1,
         max_drivers := 2, max_driver_age := 1800, running := true }, []) := by
  decide

/-- C8 counterexample: an exception outside the three caught classes
escapes _is_driver_valid instead of being treated as an invalid driver. -/
theorem valid_probe_unexpected_fault_raises :
    is_driver_valid (some ⟨1, 0⟩) ProbeOutcome.unexpectedExc = Except.error () ∧
    is_driver_valid (some ⟨1, 0⟩) ProbeOutcome.unexpectedExc ≠ Except.ok false :=
  ⟨rfl, fun h => Except.noConfusion h⟩

/-- C8 amended: _is_driver_valid returns false for a falsy driver and for
any probe failure in the caught session-disconnection classes, true on a
successful probe, and it raises (rather than returning false) on a fault
outside the WebDriverException hierarchy. -/
theorem validator_probe_outcomes (d : Driver) (probe : ProbeOutcome) :
    is_driver_valid none probe = Except.ok false
    ∧ is_driver_valid (some d) ProbeOutcome.responds = Except.ok true
    ∧ ((probe = ProbeOutcome.invalidSessionIdExc ∨ probe = ProbeOutcome.noSuchWindowExc ∨
          probe = ProbeOutcome.webDriverExc) →
        is_driver_valid (some d) probe = Except.ok false)
    ∧ is_driver_valid (some d) ProbeOutcome.unexpectedExc = Except.error () := by
  refine ⟨rfl, rfl, ?_, rfl⟩
  rintro (h | h | h) <;> subst h <;> rfl

/-- Witness for the validator theorem at a concrete disconnection class. -/
theorem validator_probe_outcomes_witness :
    is_driver_valid (some ⟨5, 0⟩) ProbeOutcome.webDriverExc = Except.ok false :=
  (validator_probe_outcomes ⟨5, 0⟩ ProbeOutcome.webDriverExc).2.2.1 (Or.inr (Or.inr rfl))
/-! Preservation of the pool invariants along every operation. -/

theorem opOKb_acquire_fresh (s : PoolState) (envs : List IterEnv)
    (h : opOKb s (Op.acquire envs) = true) : freshFor s envs := by
  intro env henv d hd
  have h2 := List.all_eq_true.mp (show envs.all (fun env =>
      match env.newDriver with
      | some d => !(decide (pyId d ∈ trackedAddrs s))
      | none => true) = true from h) env henv
  rw [hd] at h2
  simpa using h2

theorem opOKb_release_genuine (s : PoolState) (d : Driver) (now : Nat) (v1 v2 : Bool)
    (h : opOKb s (Op.release (some d) now v1 v2) = true) :
    ∀ p ∈ s.active_drivers, p.1 = pyId d → p.2.driver = d := by
  intro p hp hk
  have h2 := List.all_eq_true.mp (show s.active_drivers.all (fun p =>
      !(decide (p.1 = pyId d)) || decide (p.2.driver = d)) = true from h) p hp
  simp [hk] at h2
  exact h2

theorem get_driver_invariants : ∀ (envs : List IterEnv) (s : PoolState),
    Good s → freshFor s envs →
    Good (get_driver s envs).state ∧ (get_driver s envs).state.max_drivers = s.max_drivers := by
  intro envs
  induction envs with
  | nil => intro s hg _; exact ⟨hg, rfl⟩
  | cons env rest ih =>
    intro s hg hf
    obtain ⟨hwf, hsz, hcap⟩ := hg
    unfold addrsOK trackedAddrs at hwf
    unfold sizeInv at hsz
    unfold capInv at hcap
    have hkeysnd : (s.active_drivers.map Prod.fst).Nodup := hwf.of_append_right
    rcases hq : s.driver_pool with _ | ⟨info, q⟩
    · by_cases hc : s.pool_size < (s.max_drivers : Int)
      · rcases hnd : env.newDriver with _ | d
        · -- creation failure: state unchanged
          simp only [get_driver, hq, hc, if_true, hnd]
          exact ⟨⟨hwf, hsz, hcap⟩, trivial⟩
        · -- creation succeeds
          have hfresh : pyId d ∉ trackedAddrs s :=
            hf env (List.mem_cons_self _ _) d hnd
          have hkeys : pyId d ∉ s.active_drivers.map Prod.fst := by
            intro hmem
            exact hfresh (List.mem_append.mpr (Or.inr hmem))
          have hcont : containsA (pyId d) s.active_drivers = false :=
            (containsA_false_iff _ _).mpr hkeys
          simp only [get_driver, hq, hc, if_true, hnd, insertA_fresh _ _ _ hcont]
          refine ⟨⟨?_, ?_, ?_⟩, trivial⟩
          · unfold addrsOK trackedAddrs
            simp only [hq, List.map_nil, List.nil_append, List.map_append, List.map_cons]
            rw [(List.perm_append_singleton _ _).nodup_iff]
            exact List.nodup_cons.mpr ⟨hkeys, hkeysnd⟩
          · unfold sizeInv
            rw [hq] at hsz
            simp only [hq, List.length_nil, List.length_append, List.length_cons] at hsz ⊢
            omega
          · unfold capInv
            simp only []
            omega
      · -- capacity exhausted: sleep and retry
        have hf1 : freshFor s rest := fun e he => hf e (List.mem_cons_of_mem _ he)
        have hrec := ih s ⟨hwf, hsz, hcap⟩ hf1
        simp only [get_driver, hq, hc, if_false]
        exact hrec
    · have hwf2 : (pyId info.driver ::
          (q.map (fun e => pyId e.driver) ++ s.active_drivers.map Prod.fst)).Nodup := by
        rw [hq] at hwf
        simpa using hwf
      by_cases hv : info.valid
      · -- valid head moves to the active map
        have hknotin := (List.nodup_cons.mp hwf2).1
        have hkeys : pyId info.driver ∉ s.active_drivers.map Prod.fst := fun hmem =>
          hknotin (List.mem_append.mpr (Or.inr hmem))
        have hcont : containsA (pyId info.driver) s.active_drivers = false :=
          (containsA_false_iff _ _).mpr hkeys
        simp only [get_driver, hq, hv, if_true, insertA_fresh _ _ _ hcont]
        refine ⟨⟨?_, ?_, ?_⟩, trivial⟩
        · unfold addrsOK trackedAddrs
          simp only [List.map_append, List.map_cons, List.map_nil]
          rw [← List.append_assoc, (List.perm_append_singleton _ _).nodup_iff]
          exact hwf2
        · unfold sizeInv
          rw [hq] at hsz
          simp only [List.length_cons, List.length_append, List.length_nil] at hsz ⊢
          omega
        · unfold capInv
          simp only []
          omega
      · -- invalid head is destroyed, loop continues
        have hv2 : info.valid = false := by simpa using hv
        have hg1 : Good { s with driver_pool := q, pool_size := s.pool_size - 1 } := by
          refine ⟨(List.nodup_cons.mp hwf2).2, ?_, ?_⟩
          · unfold sizeInv
            rw [hq] at hsz
            simp only [List.length_cons] at hsz ⊢
            omega
          · unfold capInv
            simp only []
            omega
        have hf1 : freshFor { s with driver_pool := q, pool_size := s.pool_size - 1 } rest := by
          intro e he d hd hmem
          apply hf e (List.mem_cons_of_mem _ he) d hd
          unfold trackedAddrs at hmem ⊢
          rw [hq]
          simp only [List.map_cons, List.cons_append, List.mem_cons]
          exact Or.inr hmem
        have hrec := ih _ hg1 hf1
        simp only [get_driver, hq, hv2, Bool.false_eq_true, if_false]
        exact hrec

theorem get_driver_lifecycle : ∀ (envs : List IterEnv) (s : PoolState),
    Good s → freshFor s envs →
    (∀ x ∈ trackedDrivers s,
        x ∈ trackedDrivers (get_driver s envs).state ∨ x ∈ (get_driver s envs).destroyed)
    ∧ ∀ x ∈ (get_driver s envs).created, x ∈ trackedDrivers (get_driver s envs).state := by
  intro envs
  induction envs with
  | nil =>
    intro s _ _
    exact ⟨fun x hx => Or.inl hx, fun x hx => by simp [get_driver] at hx⟩
  | cons env rest ih =>
    intro s hg hf
    obtain ⟨hwf, hsz, hcap⟩ := hg
    unfold addrsOK trackedAddrs at hwf
    rcases hq : s.driver_pool with _ | ⟨info, q⟩
    · by_cases hc : s.pool_size < (s.max_drivers : Int)
      · rcases hnd : env.newDriver with _ | d
        · simp only [get_driver, hq, hc, if_true, hnd]
          exact ⟨fun x hx => Or.inl hx, fun x hx => by simp at hx⟩
        · have hfresh : pyId d ∉ trackedAddrs s :=
            hf env (List.mem_cons_self _ _) d hnd
          have hkeys : pyId d ∉ s.active_drivers.map Prod.fst := by
            intro hmem
            exact hfresh (List.mem_append.mpr (Or.inr hmem))
          have hcont : containsA (pyId d) s.active_drivers = false :=
            (containsA_false_iff _ _).mpr hkeys
          simp only [get_driver, hq, hc, if_true, hnd, insertA_fresh _ _ _ hcont]
          constructor
          · intro x hx
            left
            unfold trackedDrivers at hx ⊢
            rw [hq] at hx
            simp only [List.map_nil, List.nil_append] at hx
            simp only [List.map_nil, List.nil_append, List.map_append, List.map_cons,
              List.mem_append]
            exact Or.inl hx
          · intro x hx
            simp only [List.mem_singleton] at hx
            subst hx
            unfold trackedDrivers
            simp
      · have hf1 : freshFor s rest := fun e he => hf e (List.mem_cons_of_mem _ he)
        have hrec := ih s ⟨hwf, hsz, hcap⟩ hf1
        simp only [get_driver, hq, hc, if_false]
        exact hrec
    · have hwf2 : (pyId info.driver ::
          (q.map (fun e => pyId e.driver) ++ s.active_drivers.map Prod.fst)).Nodup := by
        rw [hq] at hwf
        simpa using hwf
      by_cases hv : info.valid
      · have hknotin := (List.nodup_cons.mp hwf2).1
        have hkeys : pyId info.driver ∉ s.active_drivers.map Prod.fst := fun hmem =>
          hknotin (List.mem_append.mpr (Or.inr hmem))
        have hcont : containsA (pyId info.driver) s.active_drivers = false :=
          (containsA_false_iff _ _).mpr hkeys
        simp only [get_driver, hq, hv, if_true, insertA_fresh _ _ _ hcont]
        constructor
        · intro x hx
          left
          unfold trackedDrivers at hx ⊢
          rw [hq] at hx
          simp only [List.map_cons, List.cons_append, List.mem_cons, List.mem_append,
            List.map_append, List.map_nil, List.mem_singleton] at hx ⊢
          rcases hx with h | h | h
          · exact Or.inr (Or.inr (by simp [h]))
          · exact Or.inl h
          · exact Or.inr (Or.inl h)
        · intro x hx
          simp at hx
      · have hv2 : info.valid = false := by simpa using hv
        have hg1 : Good { s with driver_pool := q, pool_size := s.pool_size - 1 } := by
          refine ⟨(List.nodup_cons.mp hwf2).2, ?_, ?_⟩
          · unfold sizeInv
            unfold sizeInv at hsz
            rw [hq] at hsz
            simp only [List.length_cons] at hsz ⊢
            omega
          · unfold capInv
            unfold capInv at hcap
            simp only []
            omega
        have hf1 : freshFor { s with driver_pool := q, pool_size := s.pool_size - 1 } rest := by
          intro e he d hd hmem
          apply hf e (List.mem_cons_of_mem _ he) d hd
          unfold trackedAddrs at hmem ⊢
          rw [hq]
          simp only [List.map_cons, List.cons_append, List.mem_cons]
          exact Or.inr hmem
        have hrec := ih _ hg1 hf1
        simp only [get_driver, hq, hv2, Bool.false_eq_true, if_false]
        constructor
        · intro x hx
          unfold trackedDrivers at hx
          rw [hq] at hx
          simp only [List.map_cons, List.cons_append, List.mem_cons] at hx
          rcases hx with h | h
          · right
            subst h
            exact List.mem_cons_self _ _
          · rcases hrec.1 x h with h1 | h1
            · exact Or.inl h1
            · exact Or.inr (List.mem_cons_of_mem _ h1)
        · exact hrec.2

theorem release_invariants (s : PoolState) (dOpt : Option Driver) (now : Nat) (v1 v2 : Bool)
    (hg : Good s) :
    Good (release_driver s dOpt now v1 v2).1
    ∧ (release_driver s dOpt now v1 v2).1.max_drivers = s.max_drivers := by
  obtain ⟨hwf, hsz, hcap⟩ := hg
  unfold addrsOK trackedAddrs at hwf
  unfold sizeInv at hsz
  unfold capInv at hcap
  rcases dOpt with _ | d
  · exact ⟨⟨hwf, hsz, hcap⟩, rfl⟩
  · rcases hpr : popA (pyId d) s.active_drivers with ⟨o, rest⟩
    rcases o with _ | info
    · simp only [release_driver, hpr]
      exact ⟨⟨hwf, hsz, hcap⟩, by trivial⟩
    · have h1 : (popA (pyId d) s.active_drivers).1 = some info := by rw [hpr]
      have h2 : (popA (pyId d) s.active_drivers).2 = rest := by rw [hpr]
      have hmem := popA_some_mem _ _ _ h1
      have hlen : s.active_drivers.length = rest.length + 1 := by
        have h3 := popA_some_length _ _ _ h1
        rw [h2] at h3
        exact h3
      have hsub : rest.Sublist s.active_drivers := by
        have h3 := popA_sublist (pyId d) s.active_drivers
        rw [h2] at h3
        exact h3
      have hkeysnd : (s.active_drivers.map Prod.fst).Nodup := hwf.of_append_right
      have hknotrest : pyId d ∉ rest.map Prod.fst := by
        have h3 := popA_not_mem_keys (pyId d) s.active_drivers hkeysnd
        rw [h2] at h3
        exact h3
      have hkin : pyId d ∈ s.active_drivers.map Prod.fst :=
        List.mem_map_of_mem Prod.fst hmem
      have hknotidle : pyId d ∉ s.driver_pool.map (fun e => pyId e.driver) := fun h =>
        List.disjoint_of_nodup_append hwf h hkin
      have hrestnd : (s.driver_pool.map (fun e => pyId e.driver) ++ rest.map Prod.fst).Nodup :=
        ((hsub.map Prod.fst).append_left _).nodup hwf
      simp only [release_driver, hpr]
      split
      · refine ⟨⟨?_, ?_, ?_⟩, by trivial⟩
        · exact hrestnd
        · show s.pool_size - 1 = ((s.driver_pool.length + rest.length : Nat) : Int)
          omega
        · show s.pool_size - 1 ≤ (s.max_drivers : Int)
          omega
      · refine ⟨⟨?_, ?_, ?_⟩, by trivial⟩
        · show (((s.driver_pool ++
              [({ driver := d, created_at := info.created_at, valid := v2 } : IdleEntry)]).map
                (fun e => pyId e.driver)) ++ rest.map Prod.fst).Nodup
          simp only [List.map_append, List.map_cons, List.map_nil]
          rw [List.append_assoc]
          simp only [List.singleton_append]
          rw [List.perm_middle.nodup_iff]
          refine List.nodup_cons.mpr ⟨?_, hrestnd⟩
          intro hmem2
          rcases List.mem_append.mp hmem2 with h | h
          · exact hknotidle h
          · exact hknotrest h
        · show s.pool_size = (((s.driver_pool ++
              [({ driver := d, created_at := info.created_at, valid := v2 } : IdleEntry)]).length
              + rest.length : Nat) : Int)
          simp only [List.length_append, List.length_cons, List.length_nil]
          omega
        · show s.pool_size ≤ (s.max_drivers : Int)
          exact hcap

theorem release_lifecycle (s : PoolState) (d : Driver) (now : Nat) (v1 v2 : Bool)
    (hgen : ∀ p ∈ s.active_drivers, p.1 = pyId d → p.2.driver = d) :
    ∀ x ∈ trackedDrivers s,
      x ∈ trackedDrivers (release_driver s (some d) now v1 v2).1
        ∨ x ∈ (release_driver s (some d) now v1 v2).2 := by
  intro x hx
  rcases hpr : popA (pyId d) s.active_drivers with ⟨o, rest⟩
  rcases o with _ | info
  · simp only [release_driver, hpr]
    exact Or.inl hx
  · have h1 : (popA (pyId d) s.active_drivers).1 = some info := by rw [hpr]
    have h2 : (popA (pyId d) s.active_drivers).2 = rest := by rw [hpr]
    unfold trackedDrivers at hx
    rcases List.mem_append.mp hx with hidle | hact
    · simp only [release_driver, hpr]
      split
      · left
        exact List.mem_append.mpr (Or.inl hidle)
      · left
        unfold trackedDrivers
        simp only [List.map_append, List.map_cons, List.map_nil, List.mem_append]
        exact Or.inl (Or.inl hidle)
    · rcases List.mem_map.mp hact with ⟨p, hp, hpx⟩
      rcases popA_mem_or (pyId d) s.active_drivers p hp with hpm | hpm
      · rw [h2] at hpm
        simp only [release_driver, hpr]
        split
        · left
          exact List.mem_append.mpr (Or.inr (hpx ▸ List.mem_map_of_mem _ hpm))
        · left
          unfold trackedDrivers
          simp only [List.map_append, List.mem_append]
          exact Or.inr (hpx ▸ List.mem_map_of_mem _ hpm)
      · rw [h1] at hpm
        have hxd : x = d := by
          rw [← hpx]
          exact hgen p hp hpm.2
        simp only [release_driver, hpr]
        split
        · right
          simp [hxd]
        · left
          unfold trackedDrivers
          simp only [List.map_append, List.map_cons, List.map_nil, List.mem_append,
            List.mem_singleton]
          exact Or.inl (Or.inr (by simp [hxd]))

theorem sweep_invariants (s : PoolState) (t : Nat) (hg : Good s) :
    Good (maintenance_sweep s t).1
    ∧ (maintenance_sweep s t).1.max_drivers = s.max_drivers := by
  obtain ⟨hwf, hsz, hcap⟩ := hg
  unfold addrsOK trackedAddrs at hwf
  unfold sizeInv at hsz
  unfold capInv at hcap
  refine ⟨⟨?_, ?_, ?_⟩, sweep_state_max s t⟩
  · unfold addrsOK trackedAddrs
    rw [sweep_state_active, sweep_state_pool]
    exact (((List.filter_sublist _).map Prod.fst).append_left _).nodup hwf
  · unfold sizeInv
    rw [sweep_pool_size, sweep_state_active, sweep_state_pool]
    omega
  · unfold capInv
    rw [sweep_pool_size, sweep_state_max]
    have hfl := List.length_filter_le (fun q => !stuckB t q) s.active_drivers
    omega

theorem sweep_lifecycle (s : PoolState) (t : Nat) :
    ∀ x ∈ trackedDrivers s,
      x ∈ trackedDrivers (maintenance_sweep s t).1 ∨ x ∈ (maintenance_sweep s t).2 := by
  intro x hx
  unfold trackedDrivers at hx ⊢
  rw [sweep_state_active, sweep_state_pool, sweep_destroyed_eq]
  rcases List.mem_append.mp hx with h | h
  · exact Or.inl (List.mem_append.mpr (Or.inl h))
  · rcases List.mem_map.mp h with ⟨p, hp, hpx⟩
    by_cases hst : stuckB t p
    · right
      exact hpx ▸ List.mem_map_of_mem _ (List.mem_filter.mpr ⟨hp, hst⟩)
    · left
      refine List.mem_append.mpr (Or.inr ?_)
      exact hpx ▸ List.mem_map_of_mem _ (List.mem_filter.mpr ⟨hp, by simpa using hst⟩)

theorem step_invariants (s : PoolState) (op : Op) (hg : Good s) (hok : opOKb s op = true) :
    Good (step s op).state ∧ (step s op).state.max_drivers = s.max_drivers := by
  cases op with
  | acquire envs => exact get_driver_invariants envs s hg (opOKb_acquire_fresh s envs hok)
  | release dOpt now v1 v2 => exact release_invariants s dOpt now v1 v2 hg
  | sweep o =>
    rcases o with t | _
    · by_cases hr : s.running
      · have h := sweep_invariants s t hg
        simp only [step, maintenance_worker, hr, if_true]
        exact h
      · simp only [step, maintenance_worker, hr, if_false]
        exact ⟨hg, by trivial⟩
    · by_cases hr : s.running
      · simp only [step, maintenance_worker, hr, if_true]
        exact ⟨hg, by trivial⟩
      · simp only [step, maintenance_worker, hr, if_false]
        exact ⟨hg, by trivial⟩
  | doShutdown =>
    refine ⟨⟨?_, ?_, ?_⟩, rfl⟩
    · unfold addrsOK trackedAddrs
      exact List.nodup_nil
    · unfold sizeInv
      rfl
    · unfold capInv
      exact Int.natCast_nonneg s.max_drivers

theorem step_lifecycle (s : PoolState) (op : Op) (hg : Good s) (hok : opOKb s op = true) :
    (∀ x ∈ trackedDrivers s,
        x ∈ trackedDrivers (step s op).state ∨ x ∈ (step s op).destroyed)
    ∧ ∀ x ∈ (step s op).created, x ∈ trackedDrivers (step s op).state := by
  cases op with
  | acquire envs => exact get_driver_lifecycle envs s hg (opOKb_acquire_fresh s envs hok)
  | release dOpt now v1 v2 =>
    rcases dOpt with _ | d
    · exact ⟨fun x hx => Or.inl hx, fun x hx => by simp [step, release_driver] at hx⟩
    · refine ⟨release_lifecycle s d now v1 v2 (opOKb_release_genuine s d now v1 v2 hok), ?_⟩
      intro x hx
      simp [step] at hx
  | sweep o =>
    rcases o with t | _
    · by_cases hr : s.running
      · have h := sweep_lifecycle s t
        simp only [step, maintenance_worker, hr, if_true]
        constructor
        · intro x hx
          rcases h x hx with h1 | h1
          · exact Or.inl h1
          · right
            simpa using h1
        · intro x hx
          simp at hx
      · simp only [step, maintenance_worker, hr, if_false]
        exact ⟨fun x hx => Or.inl hx, fun x hx => by simp at hx⟩
    · by_cases hr : s.running
      · simp only [step, maintenance_worker, hr, if_true]
        exact ⟨fun x hx => Or.inl hx, fun x hx => by simp at hx⟩
      · simp only [step, maintenance_worker, hr, if_false]
        exact ⟨fun x hx => Or.inl hx, fun x hx => by simp at hx⟩
  | doShutdown =>
    constructor
    · intro x hx
      exact Or.inr hx
    · intro x hx
      simp [step] at hx

theorem run_invariants : ∀ (ops : List Op) (s : PoolState),
    Good s → traceOKb s ops = true →
    Good (run s ops).state ∧ (run s ops).state.max_drivers = s.max_drivers := by
  intro ops
  induction ops with
  | nil => intro s hg _; exact ⟨hg, rfl⟩
  | cons op rest ih =>
    intro s hg hok
    have hok3 : opOKb s op = true ∧ traceOKb (step s op).state rest = true := by
      simpa [traceOKb] using hok
    obtain ⟨hok1, hok2⟩ := hok3
    have hstep := step_invariants s op hg hok1
    have hrec := ih (step s op).state hstep.1 hok2
    exact ⟨hrec.1, hrec.2.trans hstep.2⟩

theorem run_lifecycle : ∀ (ops : List Op) (s : PoolState),
    Good s → traceOKb s ops = true →
    (∀ x ∈ trackedDrivers s,
        x ∈ trackedDrivers (run s ops).state ∨ x ∈ (run s ops).destroyed)
    ∧ ∀ x ∈ (run s ops).created,
        x ∈ trackedDrivers (run s ops).state ∨ x ∈ (run s ops).destroyed := by
  intro ops
  induction ops with
  | nil =>
    intro s _ _
    exact ⟨fun x hx => Or.inl hx, fun x hx => by simp [run] at hx⟩
  | cons op rest ih =>
    intro s hg hok
    have hok3 : opOKb s op = true ∧ traceOKb (step s op).state rest = true := by
      simpa [traceOKb] using hok
    obtain ⟨hok1, hok2⟩ := hok3
    have hstep := step_lifecycle s op hg hok1
    have hgs := (step_invariants s op hg hok1).1
    have hrec := ih (step s op).state hgs hok2
    constructor
    · intro x hx
      rcases hstep.1 x hx with h | h
      · rcases hrec.1 x h with h3 | h3
        · exact Or.inl h3
        · exact Or.inr (List.mem_append.mpr (Or.inr h3))
      · exact Or.inr (List.mem_append.mpr (Or.inl h))
    · intro x hx
      rcases List.mem_append.mp hx with h | h
      · have h4 := hstep.2 x h
        rcases hrec.1 x h4 with h3 | h3
        · exact Or.inl h3
        · exact Or.inr (List.mem_append.mpr (Or.inr h3))
      · rcases hrec.2 x h with h3 | h3
        · exact Or.inl h3
        · exact Or.inr (List.mem_append.mpr (Or.inr h3))

theorem run_append : ∀ (l1 l2 : List Op) (s : PoolState),
    run s (l1 ++ l2) =
      ⟨(run (run s l1).state l2).state,
        (run s l1).destroyed ++ (run (run s l1).state l2).destroyed,
        (run s l1).created ++ (run (run s l1).state l2).created⟩ := by
  intro l1
  induction l1 with
  | nil => intro l2 s; simp [run]
  | cons op t ih =>
    intro l2 s
    have h1 : run s ((op :: t) ++ l2) =
        ⟨(run (step s op).state (t ++ l2)).state,
          (step s op).destroyed ++ (run (step s op).state (t ++ l2)).destroyed,
          (step s op).created ++ (run (step s op).state (t ++ l2)).created⟩ := rfl
    have h2 : run s (op :: t) =
        ⟨(run (step s op).state t).state,
          (step s op).destroyed ++ (run (step s op).state t).destroyed,
          (step s op).created ++ (run (step s op).state t).created⟩ := rfl
    rw [h1, ih, h2]
    simp [List.append_assoc]

theorem freshPool_good (m a : Nat) : Good (freshPool m a) := by
  refine ⟨?_, ?_, ?_⟩
  · unfold addrsOK trackedAddrs freshPool
    simp
  · unfold sizeInv freshPool
    simp
  · unfold capInv
    exact Int.natCast_nonneg m

/-- C1: along every interleaving of get_driver and release_driver calls
that starts from a fresh pool and respects the runtime object model
(fresh addresses for created drivers, callers release the object they
acquired), pool_size always equals the idle-queue length plus the
active-map size and never exceeds max_drivers. -/
theorem acquire_release_count_invariant (m a : Nat) (ops : List Op)
    (hAR : ops.all acquireOrRelease = true)
    (hOK : traceOKb (freshPool m a) ops = true) :
    (run (freshPool m a) ops).state.pool_size =
        (((run (freshPool m a) ops).state.driver_pool.length
          + (run (freshPool m a) ops).state.active_drivers.length : Nat) : Int)
      ∧ (run (freshPool m a) ops).state.pool_size ≤ (m : Int) := by
  have h := run_invariants ops (freshPool m a) (freshPool_good m a) hOK
  refine ⟨h.1.2.1, ?_⟩
  have hc := h.1.2.2
  unfold capInv at hc
  rw [h.2] at hc
  exact hc

/-- Witness for the count invariant on a concrete acquire then release. -/
theorem acquire_release_count_invariant_witness :
    (run (freshPool 1 1800)
        [Op.acquire [⟨0, some ⟨3, 0⟩⟩], Op.release (some ⟨3, 0⟩) 5 true true]).state.pool_size
      ≤ ((1 : Nat) : Int) :=
  (acquire_release_count_invariant 1 1800
      [Op.acquire [⟨0, some ⟨3, 0⟩⟩], Op.release (some ⟨3, 0⟩) 5 true true]
      (by decide) (by decide)).2

/-- C2 counterexample: a driver created by acquire is quit once by
shutdown and then quit a second time when its holder releases it, because
release_driver destroys unknown drivers defensively; destruction is
therefore not exactly-once. -/
theorem release_after_shutdown_destroys_twice :
    (run (freshPool 1 1800)
        [Op.acquire [⟨0, some ⟨7, 0⟩⟩], Op.doShutdown,
          Op.release (some ⟨7, 0⟩) 1 true true]).destroyed = [⟨7, 0⟩, ⟨7, 0⟩]
    ∧ (run (freshPool 1 1800)
        [Op.acquire [⟨0, some ⟨7, 0⟩⟩], Op.doShutdown,
          Op.release (some ⟨7, 0⟩) 1 true true]).created = [⟨7, 0⟩] := by
  decide

/-- C2 amended: on any faithful trace followed by shutdown, the idle
queue and active map end empty with pool_size zero, and every driver
ever created has been passed to _quit_driver at least once (not exactly
once: a release arriving after shutdown or after a reap quits the same
driver again). -/
theorem created_drivers_destroyed_at_least_once (m a : Nat) (ops : List Op)
    (hOK : traceOKb (freshPool m a) ops = true) :
    (run (freshPool m a) (ops ++ [Op.doShutdown])).state.driver_pool = []
    ∧ (run (freshPool m a) (ops ++ [Op.doShutdown])).state.active_drivers = []
    ∧ (run (freshPool m a) (ops ++ [Op.doShutdown])).state.pool_size = 0
    ∧ ∀ d ∈ (run (freshPool m a) (ops ++ [Op.doShutdown])).created,
        d ∈ (run (freshPool m a) (ops ++ [Op.doShutdown])).destroyed := by
  rw [run_append]
  refine ⟨rfl, rfl, rfl, ?_⟩
  intro d hd
  have hd2 : d ∈ (run (freshPool m a) ops).created := by
    simpa [run, step] using hd
  have hrt := run_lifecycle ops (freshPool m a) (freshPool_good m a) hOK
  rcases hrt.2 d hd2 with h | h
  · refine List.mem_append.mpr (Or.inr ?_)
    simpa [run, step] using h
  · exact List.mem_append.mpr (Or.inl h)

/-- Witness for the shutdown lifecycle theorem on a one-acquire trace. -/
theorem created_drivers_destroyed_at_least_once_witness :
    (⟨7, 0⟩ : Driver) ∈
      (run (freshPool 1 1800) ([Op.acquire [⟨0, some ⟨7, 0⟩⟩]] ++ [Op.doShutdown])).destroyed :=
  (created_drivers_destroyed_at_least_once 1 1800 [Op.acquire [⟨0, some ⟨7, 0⟩⟩]]
      (by decide)).2.2.2 ⟨7, 0⟩ (by decide)

end WebDriverPool
